import Mathlib

/-!
Verification development for the promotion step (`pkg/steps/release/promote.go`)
and the registry-sync reconciler (`pkg/controller/registrysyncer/registrysyncer.go`)
of the ci-tools repository.

The Go code is shallowly embedded: Go strings become Lean `String`, Go slices
become `List`, Go maps become association lists (`List (String × α)`) whose
lookup ignores duplicate keys later in the list (Go maps carry each key once;
well-formedness is stated as `Nodup` hypotheses where it matters), and Go map
iteration — whose order is unspecified in Go — is modelled as iteration in list
order.  Stateful code is modelled as pure functions from an explicit environment
(the responses the cluster clients would give) to a trace of actions plus an
`Except`-style result mirroring Go's `error` return.
-/

namespace CIOps

/-! ## Go string primitives

Fuel-based, structurally recursive models of the `strings` package functions
used by the source (`strings.Contains`, `strings.Split`, `strings.Replace`
with n = 1, `strings.ReplaceAll`, `strings.HasPrefix`, `strings.Join`).
The fuel is always the length of the scanned character list, so it never
runs out; it only serves to make the recursion structural.
-/

/-- Model of Go strings.HasPrefix on character lists. -/
def hasPfx (s p : String) : Bool := p.data.isPrefixOf s.data

/-- Scanning core of strings.Contains: does `sub` occur in the list? -/
def goContainsAux (sub : List Char) : List Char → Bool
  | [] => sub.isPrefixOf []
  | c :: rest => sub.isPrefixOf (c :: rest) || goContainsAux sub rest

/-- Model of Go strings.Contains. -/
def goContains (s sub : String) : Bool := goContainsAux sub.data s.data

/-- Scanning core of strings.Split (for a non-empty separator). -/
def goSplitAux (sep : List Char) : Nat → List Char → List Char → List (List Char)
  | _, [], cur => [cur.reverse]
  | 0, s, cur => [cur.reverse ++ s]
  | fuel+1, c :: rest, cur =>
    if sep.isPrefixOf (c :: rest) then
      cur.reverse :: goSplitAux sep fuel (List.drop sep.length (c :: rest)) []
    else goSplitAux sep fuel rest (c :: cur)

/-- Model of Go strings.Split.  The source only ever splits on the non-empty
separator "/"; Go's splitting-into-runes behaviour for an empty separator is
not modelled (the guard returns the whole string). -/
def goSplit (s sep : String) : List String :=
  if sep.data.isEmpty then [s]
  else (goSplitAux sep.data s.data.length s.data []).map String.mk

/-- Scanning core of strings.Replace with n = 1. -/
def goReplaceOnceAux (old new : List Char) : Nat → List Char → List Char
  | _, [] => []
  | 0, s => s
  | fuel+1, c :: rest =>
    if old.isPrefixOf (c :: rest) then new ++ List.drop old.length (c :: rest)
    else c :: goReplaceOnceAux old new fuel rest

/-- Model of Go strings.Replace(s, old, new, 1): replace the first
(left-most) occurrence of `old` by `new`. -/
def goReplaceOnce (s old new : String) : String :=
  String.mk (goReplaceOnceAux old.data new.data s.data.length s.data)

/-- Scanning core of strings.ReplaceAll (for a non-empty pattern). -/
def goReplaceAllAux (old new : List Char) : Nat → List Char → List Char
  | _, [] => []
  | 0, s => s
  | fuel+1, c :: rest =>
    if old.isPrefixOf (c :: rest) then
      new ++ goReplaceAllAux old new fuel (List.drop old.length (c :: rest))
    else c :: goReplaceAllAux old new fuel rest

/-- Model of Go strings.ReplaceAll (the source only uses non-empty patterns). -/
def goReplaceAll (s old new : String) : String :=
  if old.data.isEmpty then s
  else String.mk (goReplaceAllAux old.data new.data s.data.length s.data)

/-- Model of Go strings.Join. -/
def goJoin (sep : String) : List String → String
  | [] => ""
  | [x] => x
  | x :: y :: rest => x ++ sep ++ goJoin sep (y :: rest)

/-- Model of filepath.Join for the two plain path components the source joins. -/
def joinPath (a b : String) : String := a ++ "/" ++ b

/-! ## Go maps and string sets as association lists -/

/-- Lookup in an association list: the Go map read `m[k]`.  Returns the value
of the first entry with key `k` (Go maps carry each key at most once). -/
def lookupAssoc {α : Type} : List (String × α) → String → Option α
  | [], _ => none
  | p :: m, k => if p.1 = k then some p.2 else lookupAssoc m k

/-- The Go map write via delete: `delete(m, k)`. -/
def mapDelete {α : Type} (m : List (String × α)) (k : String) : List (String × α) :=
  m.filter (fun p => p.1 != k)

/-- The Go map write `m[k] = v`: the new binding shadows (here: replaces)
any previous binding of `k`. -/
def mapSet {α : Type} (m : List (String × α)) (k : String) (v : α) : List (String × α) :=
  (k, v) :: mapDelete m k

/-- The keys of an association list. -/
def mapKeys {α : Type} (m : List (String × α)) : List String := m.map Prod.fst

/-- Model of sets.String Insert. -/
def setInsert (s : List String) (x : String) : List String :=
  if s.contains x then s else s ++ [x]

/-- Model of sets.String Delete. -/
def setDelete (s : List String) (x : String) : List String :=
  s.filter (fun y => y != x)

/-- First-defined-wins choice on optional values (the shape of an
association-list lookup through an append). -/
def orElseOpt {α : Type} (o : Option α) (d : Unit → Option α) : Option α :=
  match o with
  | some v => some v
  | none => d ()

/-! ## Constants from pkg/api

The `pkg/api` package is not part of the provided sources; only its callers
are.  The values below are therefore modelled from the spec (and are pinned
by the promotion-step tests that are part of the sources). -/

/-- Modelled from the spec: api.DomainForService(api.ServiceRegistry), the
public hostname of the api.ci registry, "registry.svc.ci.openshift.org"
(spec §8 public-domain rewrite; also pinned by TestGetImageMirrorTarget and
TestGetPromotionPod in the sources). -/
def DomainForServiceRegistry : String := "registry.svc.ci.openshift.org"

/-- Modelled from the spec: api.ServiceDomainAPICIRegistry, the public
registry domain of the api.ci cluster. -/
def ServiceDomainAPICIRegistry : String := "registry.svc.ci.openshift.org"

/-- Modelled from the spec: api.ServiceDomainAPPCIRegistry, the public
registry domain of the app.ci cluster (its exact value is immaterial to the
claims settled here). -/
def ServiceDomainAPPCIRegistry : String := "registry.ci.openshift.org"

/-- Modelled from the spec: api.RegistryPushCredentialsCICentralSecretMountPath,
the mount path of the push secret, "/etc/push-secret" (spec §6 promotion pod
layout). -/
def RegistryPushCredentialsCICentralSecretMountPath : String := "/etc/push-secret"

/-- Modelled from the spec: corev1.DockerConfigJsonKey, ".dockerconfigjson"
(pinned by the expected "--registry-config=/etc/push-secret/.dockerconfigjson"
in TestGetPromotionPod). -/
def DockerConfigJsonKey : String := ".dockerconfigjson"

/-- Modelled from the spec: api.RegistryPushCredentialsCICentralSecret, the
name of the push-credentials secret (opaque to the claims settled here). -/
def RegistryPushCredentialsCICentralSecret : String := "registry-push-credentials-ci-central"

/-! ## Data model of the promotion step (pkg/steps/release/promote.go) -/

/-- api.PromotionConfiguration.  `NamePfx` models the Go field NamePrefix;
the Go maps ExcludedImages ([]string) and AdditionalImages (map[string]string)
become a list and an association list. -/
structure PromotionConfiguration where
  Namespace : String := ""
  Name : String := ""
  Tag : String := ""
  NamePfx : String := ""
  ExcludedImages : List String := []
  AdditionalImages : List (String × String) := []
  Disabled : Bool := false
deriving DecidableEq

/-- api.ProjectDirectoryImageBuildStepConfiguration (the two fields toPromote
reads: To and Optional). -/
structure ProjectDirectoryImageBuildStepConfiguration where
  To : String
  Optional : Bool := false
deriving DecidableEq

/-- imagev1.TagEvent (the field findDockerImageReference reads). -/
structure TagEvent where
  DockerImageReference : String
deriving DecidableEq

/-- imagev1.NamedTagEventList: one entry of ImageStream.Status.Tags. -/
structure NamedTagEventList where
  Tag : String
  Items : List TagEvent
deriving DecidableEq

/-- The part of imagev1.ImageStream the promotion step reads: Status.Tags and
Status.PublicDockerImageRepository. -/
structure PromoImageStream where
  StatusTags : List NamedTagEventList := []
  PublicDockerImageRepository : String := ""
deriving DecidableEq

/-- The fold step of toPromote's first loop: if the image is required or
non-optional, include it (tagsByDst[tag] = tag; names.Insert(tag)). -/
def toPromoteInitStep (requiredImages : List String)
    (acc : List (String × String) × List String)
    (image : ProjectDirectoryImageBuildStepConfiguration) :
    List (String × String) × List String :=
  if requiredImages.contains image.To || !image.Optional then
    (mapSet acc.1 image.To image.To, setInsert acc.2 image.To)
  else acc

/-- toPromote (promote.go:325-363): determines the mapping of local tag to
external tag which should be promoted, together with the set of destination
names.  Go's map iteration over AdditionalImages is modelled as iteration in
list order (the entries of a Go map have pairwise-distinct keys, so the
resulting map does not depend on that order). -/
def toPromote (config : PromotionConfiguration)
    (images : List ProjectDirectoryImageBuildStepConfiguration)
    (requiredImages : List String) : List (String × String) × List String :=
  if config.Disabled then ([], [])
  else
    let init := images.foldl (toPromoteInitStep requiredImages) ([], [])
    let afterEx := config.ExcludedImages.foldl
      (fun acc tag => (mapDelete acc.1 tag, setDelete acc.2 tag)) init
    let afterAdd := config.AdditionalImages.foldl
      (fun acc p => (mapSet acc.1 p.1 p.2, setInsert acc.2 p.1)) afterEx
    if config.NamePfx = "" then afterAdd
    else
      (afterAdd.1.map (fun p => (config.NamePfx ++ p.1, p.2)),
       afterAdd.1.map (fun p => config.NamePfx ++ p.1))

/-! ### The spec's reference derivation of the tag mapping

Written from the spec's words (§3 Tag Mapping): "start with `{to → to}` for
every image that is required OR not optional; subtract `ExcludedImages`;
union `AdditionalImages`; if `NamePrefix` is set, rewrite every dst to
`NamePrefix+dst`", and "If `C.Disabled`, the mapping is empty."  This is the
second definition of claim C1's refinement comparison; it deliberately uses
filter/append phrasing rather than the source's fold of map writes. -/

/-- Spec stage 1: the initial `{to → to}` entries. -/
def specStart (images : List ProjectDirectoryImageBuildStepConfiguration)
    (requiredImages : List String) : List (String × String) :=
  (images.filter (fun i => requiredImages.contains i.To || !i.Optional)).map
    (fun i => (i.To, i.To))

/-- Spec stage 2: subtract the excluded images. -/
def specSubtractExcluded (config : PromotionConfiguration)
    (l : List (String × String)) : List (String × String) :=
  l.filter (fun p => !(config.ExcludedImages.contains p.1))

/-- Spec stage 3: union the additional images (map union, additional images
winning on their keys). -/
def specUnionAdditional (config : PromotionConfiguration)
    (l : List (String × String)) : List (String × String) :=
  l.filter (fun p => !((config.AdditionalImages.map Prod.fst).contains p.1))
    ++ config.AdditionalImages

/-- Spec stage 4: rewrite every destination key under the name prefix. -/
def specRewritePrefixed (config : PromotionConfiguration)
    (l : List (String × String)) : List (String × String) :=
  if config.NamePfx = "" then l
  else l.map (fun p => (config.NamePfx ++ p.1, p.2))

/-- The spec's reference derivation of the tag mapping, assembled. -/
def toPromoteSpec (config : PromotionConfiguration)
    (images : List ProjectDirectoryImageBuildStepConfiguration)
    (requiredImages : List String) : List (String × String) :=
  if config.Disabled then []
  else
    specRewritePrefixed config
      (specUnionAdditional config
        (specSubtractExcluded config (specStart images requiredImages)))

/-! ### The remaining promote.go functions -/

/-- api.ImageStreamTagReference. -/
structure ImageStreamTagReference where
  Namespace : String
  Name : String
  Tag : String
deriving DecidableEq

/-- api.ReleaseBuildConfiguration (the two fields PromotedTags reads).  The Go
pointer *PromotionConfiguration becomes an Option. -/
structure ReleaseBuildConfiguration where
  Images : List ProjectDirectoryImageBuildStepConfiguration := []
  PromotionConfiguration : Option PromotionConfiguration := none

/-- PromotedTags (promote.go:366-390): the tags promoted for a configuration.
Go's nil slice result is modelled as the empty list; Go's `for dst := range
tags` is modelled as iterating the tag mapping in list order. -/
def PromotedTags (configuration : ReleaseBuildConfiguration) :
    List ImageStreamTagReference :=
  match configuration.PromotionConfiguration with
  | none => []
  | some promo =>
    let tags := (toPromote promo configuration.Images []).1
    tags.map (fun p =>
      if promo.Name ≠ "" then
        { Namespace := promo.Namespace, Name := promo.Name, Tag := p.1 }
      else
        { Namespace := promo.Namespace, Name := p.1, Tag := promo.Tag })

/-- getPublicImageReference (promote.go:242-260): replace the internal
host-and-port of a pull spec by the public registry hostname. -/
def getPublicImageReference (dockerImageReference publicDockerImageRepository : String) :
    String :=
  if !(goContains dockerImageReference ":5000") then dockerImageReference
  else
    let splits := goSplit publicDockerImageRepository "/"
    if splits.length < 2 then dockerImageReference
    else
      let publicHost := splits.headD ""
      let splits2 := goSplit dockerImageReference "/"
      if splits2.length < 2 then dockerImageReference
      else goReplaceOnce dockerImageReference (splits2.headD "") publicHost

/-- Scanning core of findDockerImageReference: first status entry whose Tag
matches decides the result. -/
def findDockerImageReferenceAux (tag : String) : List NamedTagEventList → String
  | [] => ""
  | t :: rest =>
    if t.Tag ≠ tag then findDockerImageReferenceAux tag rest
    else match t.Items with
      | [] => ""
      | i :: _ => i.DockerImageReference

/-- findDockerImageReference (promote.go:311-322): the pull spec recorded in
the stream's status for a tag, or "" when the tag is absent or has no items. -/
def findDockerImageReference (is : PromoImageStream) (tag : String) : String :=
  findDockerImageReferenceAux tag is.StatusTags

/-- The destination pull spec of one mirror mapping entry (the two
fmt.Sprintf calls of getImageMirrorTarget). -/
def mirrorDst (config : PromotionConfiguration) (dst : String) : String :=
  if config.Name.length > 0 then
    DomainForServiceRegistry ++ "/" ++ config.Namespace ++ "/" ++ config.Name ++ ":" ++ dst
  else
    DomainForServiceRegistry ++ "/" ++ config.Namespace ++ "/" ++ dst ++ ":" ++ config.Tag

/-- The fold step of getImageMirrorTarget's loop: look up the source tag's
pull spec; skip the entry when it is missing; otherwise record
publicSpec → destination.  (In run, control panics dereferencing the nil
image-creator client before getImageMirrorTarget is ever called, so its
createIfNotFound side effect is unreachable and not modelled.) -/
def mirrorStep (config : PromotionConfiguration) (pipeline : PromoImageStream)
    (m : List (String × String)) (pr : String × String) : List (String × String) :=
  let ref := findDockerImageReference pipeline pr.2
  if ref = "" then m
  else mapSet m (getPublicImageReference ref pipeline.PublicDockerImageRepository)
    (mirrorDst config pr.1)

/-- getImageMirrorTarget (promote.go:193-227): the mirror mapping
{public source pull spec → destination ref}.  Go's nil returns (nil pipeline,
empty map) are modelled as the empty list. -/
def getImageMirrorTarget (config : PromotionConfiguration)
    (tags : List (String × String)) (pipeline : Option PromoImageStream) :
    List (String × String) :=
  match pipeline with
  | none => []
  | some p => tags.foldl (mirrorStep config p) []

/-! ### The promotion pod (promote.go:262-307) -/

/-- coreapi.VolumeMount (the fields the source sets). -/
structure VolumeMount where
  Name : String
  MountPath : String
  ReadOnly : Bool
deriving DecidableEq

/-- coreapi.Container (the fields the source sets). -/
structure Container where
  Name : String
  Image : String
  Command : List String
  Args : List String
  VolumeMounts : List VolumeMount
deriving DecidableEq

/-- coreapi.Volume with a secret source (the fields the source sets). -/
structure Volume where
  Name : String
  SecretName : String
deriving DecidableEq

/-- coreapi.Pod (the fields the source sets). -/
structure Pod where
  Name : String
  Namespace : String
  RestartPolicy : String
  Containers : List Container
  Volumes : List Volume
deriving DecidableEq

/-- Go sort.Strings, modelled as insertion sort under the lexicographic
order on strings. -/
def sortStrings (l : List String) : List String :=
  List.insertionSort (fun a b : String => a ≤ b) l

/-- One "oc image mirror" command line of the promotion pod. -/
def mirrorCommand (k v : String) : String :=
  "oc image mirror --registry-config=" ++
    joinPath RegistryPushCredentialsCICentralSecretMountPath DockerConfigJsonKey ++
    " " ++ k ++ " " ++ v

/-- getPromotionPod (promote.go:262-307): the one-shot pod that mirrors the
mapping's entries, its commands emitted for the sorted keys and joined with
" && ". -/
def getPromotionPod (imageMirrorTarget : List (String × String)) (ns : String) : Pod :=
  let keys := sortStrings (mapKeys imageMirrorTarget)
  let ocCommands := keys.map (fun k =>
    mirrorCommand k ((lookupAssoc imageMirrorTarget k).getD ""))
  { Name := "promotion"
    Namespace := ns
    RestartPolicy := "Never"
    Containers := [{
      Name := "promotion"
      Image := DomainForServiceRegistry ++ "/ocp/4.6:cli"
      Command := ["/bin/sh", "-c"]
      Args := [goJoin " && " ocCommands]
      VolumeMounts := [{ Name := "push-secret", MountPath := "/etc/push-secret", ReadOnly := true }] }]
    Volumes := [{ Name := "push-secret", SecretName := RegistryPushCredentialsCICentralSecret }] }

/-! ### The promotion step's run (promote.go:69-110)

`run` is stateful; it is modelled as a pure function from an environment
holding the responses the clients would give to a trace of the externally
visible operations plus the run's outcome.  The in-cluster promotion path
(promote.go:112-190) is summarised by a single trace element, since no claim
inspects it beyond the fact that it is not reached in the settled scenarios.

The only way past the push-secret branch's inverted nil check
(promote.go:86-89) is a nil imageCreatorClient interface, and promote.go:91
immediately calls Get on that nil interface — in Go a panic, not an error
return.  The semantics models this faithfully: the dereferencing call is
recorded in the trace and the run ends in a panic outcome, so the namespace
Create (line 95), the mirror-mapping computation with its createIfNotFound
calls (line 100), the empty-mapping check (lines 101-104) and the pod run
(line 106) are unreachable. -/

/-- The externally visible operations of the promotion step's run.  The
constructors for the destination-namespace Create, the imagestream
createIfNotFound and the pod spawn are the writes promote.go:95, 206/218 and
106 would issue; the faithful semantics never emits them (the nil-client
panic precedes them), and keeping them makes their absence from every trace
expressible. -/
inductive PromoAction where
  /-- The Get of the pipeline ImageStream on the source cluster. -/
  | getPipeline
  /-- The Get of the destination namespace issued through s.imageCreatorClient
  (the recorded flag is whether that client was nil when dereferenced). -/
  | getNamespaceViaImageCreator (clientIsNil : Bool)
  /-- The Create of the destination namespace (a cluster write). -/
  | createNamespace (ns : String)
  /-- A createIfNotFound call for an imagestream (a potential cluster write). -/
  | ensureImageStream (ns name : String)
  /-- Spawning the promotion pod (a cluster write). -/
  | runPod (pod : Pod)
  /-- The whole in-cluster promotion path (promote.go:112-190), which issues
  cluster writes of its own. -/
  | inClusterPromotion
deriving DecidableEq

/-- Is the action a pod spawn? -/
def isPodSpawn : PromoAction → Bool
  | .runPod _ => true
  | _ => false

/-- Is the action a (potential) cluster write? -/
def isWrite : PromoAction → Bool
  | .createNamespace _ => true
  | .ensureImageStream _ _ => true
  | .runPod _ => true
  | .inClusterPromotion => true
  | _ => false

/-- How one run of the promotion step ends: a nil error return, a non-nil
error return, or a Go panic (which is not a return at all). -/
inductive RunOutcome where
  | ok
  | err (msg : String)
  | panicked (msg : String)
deriving DecidableEq

/-- The environment of one run of the promotion step: its configuration and
the responses of the clusters it talks to. -/
structure PromoEnv where
  config : PromotionConfiguration
  images : List ProjectDirectoryImageBuildStepConfiguration
  requiredImages : List String
  jobNamespace : String
  /-- s.pushSecret != nil. -/
  pushSecret : Bool
  /-- s.imageCreatorClient == nil. -/
  imageCreatorClientNil : Bool
  /-- The pipeline ImageStream returned by srcClient.Get (none models a Get
  failure). -/
  pipeline : Option PromoImageStream

/-- run (promote.go:69-110) as a trace semantics.  The trace lists the
operations issued against the clusters in order; the RunOutcome component is
how run ends.  Faithful control flow: the empty-names early return, the
pipeline Get, the inverted nil check of the push-secret branch
(promote.go:86-89), and — when that check is passed, i.e. the client is
nil — the dereferencing namespace Get at promote.go:91, on which Go panics
with a nil-pointer dereference, ending the run before any later statement of
the branch. -/
def runPromotion (env : PromoEnv) : List PromoAction × RunOutcome :=
  let tagsNames := toPromote env.config env.images env.requiredImages
  if tagsNames.2 = [] then ([], .ok)
  else
    match env.pipeline with
    | none => ([.getPipeline], .err "could not resolve pipeline imagestream")
    | some _pipeline =>
      if env.pushSecret then
        if !env.imageCreatorClientNil then
          ([.getPipeline], .err "image-creator client is nil")
        else
          ([PromoAction.getPipeline,
            PromoAction.getNamespaceViaImageCreator env.imageCreatorClientNil],
           .panicked "invalid memory address or nil pointer dereference")
      else ([.getPipeline, .inClusterPromotion], .ok)

/-! ## Data model of the registry-sync reconciler
(pkg/controller/registrysyncer/registrysyncer.go) -/

/-- imagev1.Image metadata read by the reconciler: Name, CreationTimestamp
(metav1.Time modelled as a Nat, 0 being the zero time; metav1.Time.Before is
the strict order on these), and DockerImageReference. -/
structure ImageMeta where
  Name : String := ""
  CreationTimestamp : Nat := 0
  DockerImageReference : String := ""
deriving DecidableEq

/-- corev1.ObjectReference as used in TagReference.From. -/
structure TagFrom where
  Kind : String := ""
  Name : String := ""
deriving DecidableEq

/-- imagev1.TagReference (the field dockerImageImportedFromTargetingCluster
reads); the Go pointer From becomes an Option. -/
structure SyncTagRef where
  From : Option TagFrom := none
deriving DecidableEq

/-- imagev1.ImageStreamTag as read by the reconciler; the Go pointer Tag
becomes an Option. -/
structure ImageStreamTag where
  Image : ImageMeta := {}
  Tag : Option SyncTagRef := none
deriving DecidableEq

/-- imagev1.ImageStream as read by the reconciler: whether DeletionTimestamp
is set, and the finalizer list. -/
structure SyncImageStream where
  DeletionTimestamp : Bool := false
  Finalizers : List String := []
deriving DecidableEq

/-- The loop body of findNewest: update the running (cluster, time) pair on a
strictly later creation timestamp (metav1.Time.Before is strict). -/
def newestStep (acc : String × Nat) (p : String × ImageStreamTag) : String × Nat :=
  if acc.2 < p.2.Image.CreationTimestamp then (p.1, p.2.Image.CreationTimestamp) else acc

/-- findNewest (registrysyncer.go:405-415): the cluster whose tag's image has
the latest creation timestamp, starting from the empty name and the zero
time, updating only on a strictly later timestamp.  Go's map iteration is
modelled as iteration in list order. -/
def findNewest (isTags : List (String × ImageStreamTag)) : String :=
  (isTags.foldl newestStep ("", 0)).1

/-- dockerImageImportedFromTargetingCluster (registrysyncer.go:381-387).
The call site always passes a non-nil tag, so the nil receiver check is not
modelled. -/
def dockerImageImportedFromTargetingCluster (cluster : String) (tag : ImageStreamTag) :
    Bool :=
  match tag.Tag with
  | none => false
  | some t =>
    match t.From with
    | none => false
    | some f =>
      if f.Kind ≠ "DockerImage" then false
      else
        (hasPfx f.Name ServiceDomainAPICIRegistry && cluster == "api.ci") ||
        (hasPfx f.Name ServiceDomainAPPCIRegistry && cluster == "app.ci")

/-- domainForClusterName (registrysyncer.go:529-537). -/
def domainForClusterName (clusterName : String) : Except String String :=
  if clusterName = "api.ci" then .ok DomainForServiceRegistry
  else if clusterName = "app.ci" then .ok ServiceDomainAPPCIRegistry
  else .error ("failed to get the domain for cluster " ++ clusterName)

/-- publicDomainForImage (registrysyncer.go:516-527). -/
def publicDomainForImage (clusterName potentiallyPrivate : String) :
    Except String String :=
  match domainForClusterName clusterName with
  | .error e => .error e
  | .ok d =>
    let svcDomainAndPort :=
      if clusterName = "api.ci" then "docker-registry.default.svc:5000"
      else "image-registry.openshift-image-registry.svc:5000"
    .ok (goReplaceAll potentiallyPrivate svcDomainAndPort d)

/-- The externally visible operations of one reconcile (after the per-cluster
Gets that gather the ImageStreamTags, which are inputs of the model). -/
inductive SyncAction where
  /-- The Get of the source ImageStream on the source cluster. -/
  | getSourceImageStream (cluster : String)
  /-- The whole finalizeIfNeeded path (registrysyncer.go:329-359), taken when
  the source stream is being deleted; summarised since no claim inspects it. -/
  | finalizeStreams (cluster : String)
  /-- ensureFinalizer on the source stream (a patch). -/
  | ensureFinalizer (cluster : String)
  /-- The namespace ensure (Get, and Create when absent) on a target cluster. -/
  | ensureNamespace (cluster ns : String)
  /-- ensureImageStream (an upsert) on a target cluster. -/
  | ensureImageStream (cluster : String)
  /-- The cache poll for the ensured stream on a target cluster. -/
  | pollCache (cluster : String)
  /-- ensureImagePullSecret (an upsert) on a target cluster. -/
  | ensurePullSecret (cluster ns : String)
  /-- The ImageStreamImport submission on a target cluster, carrying the
  public pull spec and the destination tag. -/
  | createImageStreamImport (cluster imageName toTag : String)
deriving DecidableEq

/-- The cluster a SyncAction is issued against. -/
def actionCluster : SyncAction → String
  | .getSourceImageStream c => c
  | .finalizeStreams c => c
  | .ensureFinalizer c => c
  | .ensureNamespace c _ => c
  | .ensureImageStream c => c
  | .pollCache c => c
  | .ensurePullSecret c _ => c
  | .createImageStreamImport c _ _ => c

/-- Is the action an ImageStreamImport submission? -/
def isImport : SyncAction → Bool
  | .createImageStreamImport _ _ _ => true
  | _ => false

/-- The environment of one reconcile of request (reqNamespace,
imageStreamName:imageTag): the registry clusters in iteration order, each
with the ImageStreamTag its Get returned (none models IsNotFound), the
source ImageStream the Get on the selected source cluster returns (none
models a Get failure), and the controller's read-only flag. -/
structure SyncEnv where
  clusters : List (String × Option ImageStreamTag)
  sourceStream : Option SyncImageStream
  readOnly : Bool
  reqNamespace : String
  imageStreamName : String
  imageTag : String

/-- The gather loop (registrysyncer.go:198-210): clusters where the tag is
absent are skipped. -/
def gather (clusters : List (String × Option ImageStreamTag)) :
    List (String × ImageStreamTag) :=
  clusters.filterMap (fun p => p.2.map (fun t => (p.1, t)))

/-- The gathered tag of a cluster (the map read isTags[clusterName]). -/
def lookupCluster (clusters : List (String × Option ImageStreamTag)) (c : String) :
    Option ImageStreamTag :=
  match lookupAssoc clusters c with
  | some o => o
  | none => none

/-- The per-cluster sync loop (registrysyncer.go:241-325).  The Bool of a
successful result records whether the loop returned early (the source's
`return nil` statements at lines 283 and 317) rather than running to
completion.  The namespace ensure, imagestream ensure, cache poll and
pull-secret ensure are modelled as always succeeding; the import submission
is likewise modelled as succeeding (no claim exercises their failure paths). -/
def syncLoop (src : String) (srcTag : ImageStreamTag)
    (lookupTag : String → Option ImageStreamTag) (readOnly : Bool)
    (reqNs imageTag : String) : List String → List SyncAction × Except String Bool
  | [] => ([], .ok false)
  | c :: rest =>
    if c = src then syncLoop src srcTag lookupTag readOnly reqNs imageTag rest
    else if dockerImageImportedFromTargetingCluster c srcTag then
      syncLoop src srcTag lookupTag readOnly reqNs imageTag rest
    else
      let pre := [SyncAction.ensureNamespace c reqNs, SyncAction.ensureImageStream c,
        SyncAction.pollCache c]
      let isCurrent := match lookupTag c with
        | some t => t.Image.Name == srcTag.Image.Name
        | none => false
      if isCurrent then (pre, .ok true)
      else
        let pre2 := pre ++ [SyncAction.ensurePullSecret c reqNs]
        match publicDomainForImage src srcTag.Image.DockerImageReference with
        | .error e => (pre2, .error ("failed to get the public domain: " ++ e))
        | .ok imageName =>
          if readOnly then (pre2, .ok true)
          else
            let next := syncLoop src srcTag lookupTag readOnly reqNs imageTag rest
            (pre2 ++ SyncAction.createImageStreamImport c imageName imageTag :: next.1,
             next.2)

/-- reconcile (registrysyncer.go:187-327) from the point where the
ImageStreamTags have been gathered: source selection via findNewest (empty
name: success with no action), the source ImageStream Get, the deletion /
finalizer handling, and the per-cluster sync loop. -/
def reconcile (env : SyncEnv) : List SyncAction × Except String Unit :=
  let isTags := gather env.clusters
  let srcClusterName := findNewest isTags
  if srcClusterName = "" then ([], .ok ())
  else
    match lookupAssoc isTags srcClusterName with
    | none => ([], .error "internal: source cluster not gathered")
    | some sourceImageStreamTag =>
      match env.sourceStream with
      | none => ([.getSourceImageStream srcClusterName], .error "failed to get imageStream")
      | some sourceImageStream =>
        if sourceImageStream.DeletionTimestamp then
          ([.getSourceImageStream srcClusterName, .finalizeStreams srcClusterName], .ok ())
        else
          let head := [SyncAction.getSourceImageStream srcClusterName,
            SyncAction.ensureFinalizer srcClusterName]
          let loop := syncLoop srcClusterName sourceImageStreamTag
            (lookupCluster env.clusters) env.readOnly env.reqNamespace env.imageTag
            (env.clusters.map Prod.fst)
          (head ++ loop.1,
           match loop.2 with
           | .ok _ => .ok ()
           | .error e => .error e)

/-! ## Auxiliary definitions for the theorems -/

/-- Strip a prefix from a string: some remainder when `P` is a prefix of `y`,
none otherwise.  Inverse of prepending `P`. -/
def stripPfx (P y : String) : Option String :=
  if P.data.isPrefixOf y.data then some (String.mk (y.data.drop P.data.length))
  else none

/-- The canonical pointwise reading of the (un-prefixed) promoted tag
mapping: additional images win on their keys; otherwise exclusion deletes;
otherwise an included image maps to itself. -/
def canonGet (config : PromotionConfiguration)
    (images : List ProjectDirectoryImageBuildStepConfiguration)
    (requiredImages : List String) (x : String) : Option String :=
  orElseOpt (lookupAssoc config.AdditionalImages x) (fun _ =>
    if config.ExcludedImages.contains x = true then none
    else if (images.any (fun i =>
        (requiredImages.contains i.To || !i.Optional) && i.To == x)) = true then some x
    else none)

/-- The creation timestamp of a gathered entry. -/
def tsOf (p : String × ImageStreamTag) : Nat := p.2.Image.CreationTimestamp

/-! ### Concrete environments used by counterexamples and witnesses -/

/-- An ImageStreamTag for image sha256:abc with the given creation
timestamp, its pull spec pointing into the api.ci internal registry. -/
def mkTagAbc (ts : Nat) : ImageStreamTag :=
  { Image :=
      { Name := "sha256:abc"
        CreationTimestamp := ts
        DockerImageReference := "docker-registry.default.svc:5000/ns/isA@sha256:abc" } }

/-- A three-cluster reconcile where the source is api.ci, cluster b already
holds the source image, and cluster c lacks the tag entirely. -/
def envC3 : SyncEnv :=
  { clusters := [("api.ci", some (mkTagAbc 5)), ("b", some (mkTagAbc 3)), ("c", none)]
    sourceStream := some {}
    readOnly := false
    reqNamespace := "ns"
    imageStreamName := "isA"
    imageTag := "t" }

/-- A three-cluster read-only reconcile where both non-source clusters lack
the tag. -/
def envC9 : SyncEnv :=
  { clusters := [("api.ci", some (mkTagAbc 5)), ("b", none), ("c", none)]
    sourceStream := some {}
    readOnly := true
    reqNamespace := "ns"
    imageStreamName := "isA"
    imageTag := "t" }

/-- A reconcile where the only cluster holding the tag carries the zero
creation timestamp. -/
def envC10 : SyncEnv :=
  { clusters := [("api.ci", some (mkTagAbc 0))]
    sourceStream := some {}
    readOnly := false
    reqNamespace := "ns"
    imageStreamName := "isA"
    imageTag := "t" }

/-- A promotion run with a push secret and a non-nil image-creator client. -/
def envC4 : PromoEnv :=
  { config := { Namespace := "ci", Tag := "latest" }
    images := [{ To := "foo" }]
    requiredImages := []
    jobNamespace := "job-ns"
    pushSecret := true
    imageCreatorClientNil := false
    pipeline := some {} }

/-- A promotion run with a push secret, a nil image-creator client, and a
pipeline whose status lists none of the promoted tags (so the mirror mapping
of promote.go:100 would be empty). -/
def envC5 : PromoEnv :=
  { config := { Namespace := "ci", Tag := "latest" }
    images := [{ To := "foo" }]
    requiredImages := []
    jobNamespace := "job-ns"
    pushSecret := true
    imageCreatorClientNil := true
    pipeline := some {} }

/-- A configuration that both excludes "foo" and re-adds it as an additional
image. -/
def cfgC1ctr : PromotionConfiguration :=
  { Namespace := "ci"
    ExcludedImages := ["foo"]
    AdditionalImages := [("foo", "bar")] }

/-- A configuration with an excluded image and an additional image. -/
def cfgC1wit : PromotionConfiguration :=
  { Namespace := "ci"
    ExcludedImages := ["foo"]
    AdditionalImages := [("boo", "ah")] }

/-- A build configuration promoting image foo into stream fred of namespace
roger (destination shape with Name). -/
def rbcWithName : ReleaseBuildConfiguration :=
  { Images := [{ To := "foo" }]
    PromotionConfiguration := some { Namespace := "roger", Name := "fred" } }

/-- A build configuration promoting image foo under tag fred in namespace
roger (destination shape without Name). -/
def rbcWithTag : ReleaseBuildConfiguration :=
  { Images := [{ To := "foo" }]
    PromotionConfiguration := some { Namespace := "roger", Tag := "fred" } }

/-- A build configuration without a PromotionConfiguration. -/
def rbcNoPromo : ReleaseBuildConfiguration :=
  { Images := [{ To := "foo" }] }

/-- A promotion run whose configuration is disabled, so the tag mapping is
empty. -/
def envC5empty : PromoEnv :=
  { config := { Namespace := "ci", Tag := "latest", Disabled := true }
    images := [{ To := "foo" }]
    requiredImages := []
    jobNamespace := "job-ns"
    pushSecret := true
    imageCreatorClientNil := true
    pipeline := some {} }

/-! ## Theorems

First the generic lemmas about the association-list model of Go maps and
about strings, then the claim theorems. -/

theorem lookupAssoc_mapDelete {α : Type} (m : List (String × α)) (k x : String) :
    lookupAssoc (mapDelete m k) x = if x = k then none else lookupAssoc m x := by
  induction m with
  | nil => simp [mapDelete, lookupAssoc]
  | cons p rest ih =>
    simp only [mapDelete, List.filter_cons] at *
    by_cases hpk : p.1 = k
    · simp only [hpk, bne_self_eq_false, Bool.false_eq_true, if_false]
      rw [ih]
      by_cases hxk : x = k
      · simp [hxk]
      · have hpx : p.1 ≠ x := by rw [hpk]; exact fun h => hxk h.symm
        simp [hxk, lookupAssoc, hpx]
    · have hb : (p.1 != k) = true := bne_iff_ne.mpr hpk
      simp only [hb, if_true]
      by_cases hpx : p.1 = x
      · have hxk : ¬x = k := by rw [← hpx]; exact hpk
        simp [lookupAssoc, hpx, hxk]
      · simp [lookupAssoc, hpx, ih]

theorem lookupAssoc_mapSet {α : Type} (m : List (String × α)) (k x : String) (v : α) :
    lookupAssoc (mapSet m k v) x = if x = k then some v else lookupAssoc m x := by
  by_cases h : k = x
  · subst h; simp [mapSet, lookupAssoc]
  · have h' : ¬x = k := fun hh => h hh.symm
    simp [mapSet, lookupAssoc, h, h', lookupAssoc_mapDelete]

theorem lookupAssoc_eq_none_iff {α : Type} (m : List (String × α)) (k : String) :
    lookupAssoc m k = none ↔ k ∉ mapKeys m := by
  induction m with
  | nil => simp [lookupAssoc, mapKeys]
  | cons p rest ih =>
    by_cases h : p.1 = k
    · simp [lookupAssoc, h, mapKeys]
    · simp [lookupAssoc, h, mapKeys, ih, Ne.symm h]

theorem lookupAssoc_mem {α : Type} {m : List (String × α)} {k : String} {v : α}
    (h : lookupAssoc m k = some v) : (k, v) ∈ m := by
  induction m with
  | nil => simp [lookupAssoc] at h
  | cons p rest ih =>
    by_cases hpk : p.1 = k
    · simp only [lookupAssoc, hpk, if_true, Option.some_inj] at h
      rw [← hpk, ← h]
      exact List.mem_cons_self p rest
    · simp only [lookupAssoc, hpk, if_false] at h
      exact List.mem_cons_of_mem p (ih h)

theorem lookupAssoc_of_mem_nodup {α : Type} {m : List (String × α)} {k : String} {v : α}
    (hnd : (mapKeys m).Nodup) (hmem : (k, v) ∈ m) : lookupAssoc m k = some v := by
  induction m with
  | nil => simp at hmem
  | cons p rest ih =>
    simp only [mapKeys, List.map_cons, List.nodup_cons] at hnd
    rcases List.mem_cons.mp hmem with h | h
    · rw [← h]; simp [lookupAssoc]
    · have hk : p.1 ≠ k := by
        rintro rfl
        exact hnd.1 (by simpa [mapKeys] using List.mem_map_of_mem Prod.fst h)
      simp [lookupAssoc, hk, ih hnd.2 h]

theorem lookupAssoc_append {α : Type} (l₁ l₂ : List (String × α)) (x : String) :
    lookupAssoc (l₁ ++ l₂) x =
      orElseOpt (lookupAssoc l₁ x) (fun _ => lookupAssoc l₂ x) := by
  induction l₁ with
  | nil => simp [lookupAssoc, orElseOpt]
  | cons p rest ih =>
    by_cases h : p.1 = x <;> simp [lookupAssoc, orElseOpt, h, ih]

theorem lookupAssoc_filter_not_contains {α : Type} (ex : List String)
    (l : List (String × α)) (x : String) :
    lookupAssoc (l.filter (fun p => !(ex.contains p.1))) x =
      if ex.contains x then none else lookupAssoc l x := by
  induction l with
  | nil => simp [lookupAssoc]
  | cons p rest ih =>
    rw [List.filter_cons]
    have hcons : lookupAssoc (p :: rest) x =
        if p.1 = x then some p.2 else lookupAssoc rest x := rfl
    by_cases hq : ex.contains p.1 = true
    · rw [hq]
      simp only [Bool.not_true, Bool.false_eq_true, if_false]
      rw [ih, hcons]
      by_cases hpx : p.1 = x
      · have hmem : x ∈ ex := by
          have hx : ex.contains x = true := hpx ▸ hq
          simpa using hx
        simp [hmem]
      · simp [hpx]
    · have hq' : ex.contains p.1 = false := by simpa using hq
      rw [hq']
      simp only [Bool.not_false, if_true]
      have hcons2 : lookupAssoc (p :: rest.filter (fun p => !(ex.contains p.1))) x =
          if p.1 = x then some p.2
          else lookupAssoc (rest.filter (fun p => !(ex.contains p.1))) x := rfl
      rw [hcons2, ih, hcons]
      by_cases hpx : p.1 = x
      · have hmem : x ∉ ex := by
          have hx : ex.contains x = false := hpx ▸ hq'
          simpa using hx
        simp [hmem, hpx]
      · simp [hpx]

theorem str_data_append (a b : String) : (a ++ b).data = a.data ++ b.data := by
  cases a; cases b; rfl

theorem str_empty_append (s : String) : "" ++ s = s := by
  cases s; rfl

theorem stripPfx_append (P k : String) : stripPfx P (P ++ k) = some k := by
  have hp : P.data.isPrefixOf (P.data ++ k.data) = true :=
    List.isPrefixOf_iff_prefix.mpr (List.prefix_append P.data k.data)
  simp only [stripPfx, str_data_append, hp, if_true, List.drop_left]

theorem stripPfx_eq_some {P y k : String} (h : stripPfx P y = some k) : y = P ++ k := by
  simp only [stripPfx] at h
  by_cases hp : P.data.isPrefixOf y.data
  · simp only [hp, if_true, Option.some_inj] at h
    have hpre : P.data <+: y.data := List.isPrefixOf_iff_prefix.mp hp
    obtain ⟨t, ht⟩ := hpre
    have hk : k.data = t := by
      rw [← h, ← ht]
      simp [List.drop_left]
    cases y with
    | mk ydata =>
      have : ydata = P.data ++ k.data := by rw [hk, ht]
      rw [this]
      cases P with
      | mk pdata => cases k with
        | mk kdata => rfl
  · simp [hp] at h

theorem lookupAssoc_prefixMap (P : String) (m : List (String × String)) (y : String) :
    lookupAssoc (m.map (fun p => (P ++ p.1, p.2))) y =
      match stripPfx P y with
      | some x => lookupAssoc m x
      | none => none := by
  induction m with
  | nil => cases h : stripPfx P y <;> simp [lookupAssoc, h]
  | cons p rest ih =>
    cases h : stripPfx P y with
    | some x =>
      by_cases hkx : p.1 = x
      · subst hkx
        have hy : P ++ p.1 = y := by rw [← stripPfx_eq_some h]
        simp [lookupAssoc, hy, List.map_cons]
      · have hy : ¬(P ++ p.1 = y) := by
          intro hcontra
          rw [← hcontra, stripPfx_append] at h
          exact hkx (Option.some_inj.mp h)
        simp only [List.map_cons, lookupAssoc, hy, if_false]
        rw [ih]
        simp [h, lookupAssoc, hkx]
    | none =>
      have hy : ¬(P ++ p.1 = y) := by
        intro hcontra
        rw [← hcontra, stripPfx_append] at h
        exact Option.noConfusion h
      simp only [List.map_cons, lookupAssoc, hy, if_false]
      rw [ih]
      simp [h]

/-! ### Characterising the tag-mapping derivation (claim C1) -/

theorem toPromoteInit_get (req : List String)
    (images : List ProjectDirectoryImageBuildStepConfiguration)
    (acc : List (String × String) × List String) (x : String) :
    lookupAssoc ((images.foldl (toPromoteInitStep req) acc).1) x =
      if images.any (fun i => (req.contains i.To || !i.Optional) && i.To == x) then some x
      else lookupAssoc acc.1 x := by
  induction images generalizing acc with
  | nil => simp
  | cons i rest ih =>
    rw [List.foldl_cons, List.any_cons, ih]
    simp only [toPromoteInitStep]
    cases hr : rest.any (fun i => (req.contains i.To || !i.Optional) && i.To == x) with
    | true => simp
    | false =>
      cases hcc : (req.contains i.To || !i.Optional) with
      | false => simp
      | true =>
        cases hbe : (i.To == x) with
        | true =>
          have hxe : i.To = x := beq_iff_eq.mp hbe
          simp [lookupAssoc_mapSet, hxe]
        | false =>
          have hne : ¬x = i.To := fun h => (beq_eq_false_iff_ne.mp hbe) h.symm
          simp [lookupAssoc_mapSet, hne]

theorem excludedFold_get (excluded : List String)
    (acc : List (String × String) × List String) (x : String) :
    lookupAssoc ((excluded.foldl
        (fun acc tag => (mapDelete acc.1 tag, setDelete acc.2 tag)) acc).1) x =
      if excluded.contains x then none else lookupAssoc acc.1 x := by
  induction excluded generalizing acc with
  | nil => simp
  | cons t rest ih =>
    rw [List.foldl_cons, ih]
    by_cases hx : x = t
    · subst hx
      simp [lookupAssoc_mapDelete]
    · have hbe : (t == x) = false := beq_eq_false_iff_ne.mpr fun h => hx h.symm
      simp [lookupAssoc_mapDelete, hx, hbe, List.contains_cons]

theorem additionalFold_get (l : List (String × String))
    (acc : List (String × String) × List String) (x : String)
    (hnd : (l.map Prod.fst).Nodup) :
    lookupAssoc ((l.foldl
        (fun acc p => (mapSet acc.1 p.1 p.2, setInsert acc.2 p.1)) acc).1) x =
      orElseOpt (lookupAssoc l x) (fun _ => lookupAssoc acc.1 x) := by
  induction l generalizing acc with
  | nil => simp [lookupAssoc, orElseOpt]
  | cons p rest ih =>
    rw [List.foldl_cons]
    have hnd' : (rest.map Prod.fst).Nodup := (List.nodup_cons.mp (by simpa using hnd)).2
    rw [ih _ hnd']
    by_cases hx : p.1 = x
    · subst hx
      have hrest : lookupAssoc rest p.1 = none := by
        rw [lookupAssoc_eq_none_iff]
        exact (List.nodup_cons.mp (by simpa [mapKeys] using hnd)).1
      simp [hrest, lookupAssoc, orElseOpt, lookupAssoc_mapSet]
    · have hxp : ¬x = p.1 := fun h => hx h.symm
      cases hrx : lookupAssoc rest x <;>
        simp [lookupAssoc, orElseOpt, hx, hrx, lookupAssoc_mapSet,
          lookupAssoc_mapDelete, hxp]

theorem specStart_get (images : List ProjectDirectoryImageBuildStepConfiguration)
    (req : List String) (x : String) :
    lookupAssoc (specStart images req) x =
      if images.any (fun i => (req.contains i.To || !i.Optional) && i.To == x) then some x
      else none := by
  induction images with
  | nil => simp [specStart, lookupAssoc]
  | cons i rest ih =>
    simp only [specStart] at ih ⊢
    rw [List.filter_cons]
    simp only [List.any_cons]
    by_cases hcc : (req.contains i.To || !i.Optional) = true
    · rw [if_pos hcc, List.map_cons]
      simp only [hcc, Bool.true_and]
      by_cases hx : i.To = x
      · have hbe : (i.To == x) = true := beq_iff_eq.mpr hx
        simp only [hbe, Bool.true_or]
        simp [lookupAssoc, hx]
      · have hbe : (i.To == x) = false := beq_eq_false_iff_ne.mpr hx
        simp only [hbe, Bool.false_or]
        simp only [lookupAssoc]
        rw [if_neg hx]
        exact ih
    · have hcc' : (req.contains i.To || !i.Optional) = false := by simpa using hcc
      rw [if_neg hcc]
      simp only [hcc', Bool.false_and, Bool.false_or]
      exact ih

theorem toPromoteSpec_core_get (config : PromotionConfiguration)
    (images : List ProjectDirectoryImageBuildStepConfiguration)
    (required : List String) (x : String) :
    lookupAssoc (specUnionAdditional config
        (specSubtractExcluded config (specStart images required))) x =
      canonGet config images required x := by
  rw [specUnionAdditional, lookupAssoc_append, specSubtractExcluded,
    lookupAssoc_filter_not_contains, lookupAssoc_filter_not_contains,
    specStart_get, canonGet]
  by_cases hA : (config.AdditionalImages.map Prod.fst).contains x = true
  · rw [if_pos hA]
    cases hlx : lookupAssoc config.AdditionalImages x with
    | none =>
      have hx : x ∈ mapKeys config.AdditionalImages := by simpa [mapKeys] using hA
      exact absurd ((lookupAssoc_eq_none_iff _ _).mp hlx) (by simpa using hx)
    | some v => simp [orElseOpt]
  · rw [if_neg hA]
    have hnone : lookupAssoc config.AdditionalImages x = none := by
      rw [lookupAssoc_eq_none_iff]
      intro hmem
      exact hA (by simpa [mapKeys] using hmem)
    rw [hnone]
    by_cases hB : config.ExcludedImages.contains x = true
    · rw [if_pos hB]
    · rw [if_neg hB]
      by_cases hC : (images.any fun i =>
          (required.contains i.To || !i.Optional) && i.To == x) = true
      · rw [if_pos hC]; rfl
      · rw [if_neg hC]

theorem toPromote_core_get (config : PromotionConfiguration)
    (images : List ProjectDirectoryImageBuildStepConfiguration)
    (required : List String) (x : String)
    (hadd : (config.AdditionalImages.map Prod.fst).Nodup) :
    lookupAssoc ((config.AdditionalImages.foldl
        (fun acc p => (mapSet acc.1 p.1 p.2, setInsert acc.2 p.1))
        (config.ExcludedImages.foldl
          (fun acc tag => (mapDelete acc.1 tag, setDelete acc.2 tag))
          (images.foldl (toPromoteInitStep required) ([], [])))).1) x =
      canonGet config images required x := by
  rw [additionalFold_get _ _ _ hadd, excludedFold_get, toPromoteInit_get, canonGet]
  cases hlx : lookupAssoc config.AdditionalImages x <;>
    simp [hlx, lookupAssoc, orElseOpt]

theorem toPromote_get (config : PromotionConfiguration)
    (images : List ProjectDirectoryImageBuildStepConfiguration)
    (required : List String) (y : String)
    (hadd : (config.AdditionalImages.map Prod.fst).Nodup) :
    lookupAssoc (toPromote config images required).1 y =
      if config.Disabled = true then none
      else if config.NamePfx = "" then canonGet config images required y
      else
        match stripPfx config.NamePfx y with
        | some x => canonGet config images required x
        | none => none := by
  unfold toPromote
  by_cases hd : config.Disabled = true
  · rw [if_pos hd, if_pos hd]
    simp [lookupAssoc]
  · rw [if_neg hd, if_neg hd]
    by_cases hp : config.NamePfx = ""
    · rw [if_pos hp, if_pos hp]
      exact toPromote_core_get config images required y hadd
    · rw [if_neg hp, if_neg hp, lookupAssoc_prefixMap]
      cases hs : stripPfx config.NamePfx y with
      | some x => exact toPromote_core_get config images required x hadd
      | none => rfl

theorem toPromoteSpec_get (config : PromotionConfiguration)
    (images : List ProjectDirectoryImageBuildStepConfiguration)
    (required : List String) (y : String) :
    lookupAssoc (toPromoteSpec config images required) y =
      if config.Disabled = true then none
      else if config.NamePfx = "" then canonGet config images required y
      else
        match stripPfx config.NamePfx y with
        | some x => canonGet config images required x
        | none => none := by
  unfold toPromoteSpec specRewritePrefixed
  by_cases hd : config.Disabled = true
  · rw [if_pos hd, if_pos hd]
    simp [lookupAssoc]
  · rw [if_neg hd, if_neg hd]
    by_cases hp : config.NamePfx = ""
    · rw [if_pos hp, if_pos hp]
      exact toPromoteSpec_core_get config images required y
    · rw [if_neg hp, if_neg hp, lookupAssoc_prefixMap]
      cases hs : stripPfx config.NamePfx y with
      | some x => exact toPromoteSpec_core_get config images required x
      | none => rfl

theorem toPromote_get_prefixed (config : PromotionConfiguration)
    (images : List ProjectDirectoryImageBuildStepConfiguration)
    (required : List String) (t : String)
    (hadd : (config.AdditionalImages.map Prod.fst).Nodup)
    (hdis : config.Disabled = false) :
    lookupAssoc (toPromote config images required).1 (config.NamePfx ++ t) =
      canonGet config images required t := by
  rw [toPromote_get config images required _ hadd, hdis]
  simp only [Bool.false_eq_true, if_false]
  by_cases hp : config.NamePfx = ""
  · rw [if_pos hp, hp, str_empty_append]
  · rw [if_neg hp, stripPfx_append]

theorem any_eq_of_nodupTo (images : List ProjectDirectoryImageBuildStepConfiguration)
    (q : ProjectDirectoryImageBuildStepConfiguration → Bool)
    (i : ProjectDirectoryImageBuildStepConfiguration)
    (himg : (images.map (fun i => i.To)).Nodup) (hmem : i ∈ images) :
    images.any (fun j => q j && (j.To == i.To)) = q i := by
  induction images with
  | nil => simp at hmem
  | cons j rest ih =>
    simp only [List.map_cons, List.nodup_cons] at himg
    rcases List.mem_cons.mp hmem with h | h
    · subst h
      rw [List.any_cons]
      have hrest : rest.any (fun j => q j && (j.To == i.To)) = false := by
        rw [List.any_eq_false]
        intro k hk
        have hkne : k.To ≠ i.To := by
          intro he
          exact himg.1 (he ▸ List.mem_map_of_mem (fun i => i.To) hk)
        simp [beq_eq_false_iff_ne.mpr hkne]
      simp [hrest]
    · have hne : j.To ≠ i.To := by
        intro he
        exact himg.1 (he ▸ List.mem_map_of_mem (fun i => i.To) h)
      rw [List.any_cons]
      simp [beq_eq_false_iff_ne.mpr hne, ih himg.2 h]

/-- C1: for every PromotionConfiguration, image list and required-image set
(with the well-formedness that Go guarantees: pairwise-distinct
AdditionalImages keys and pairwise-distinct image To tags), the tag mapping
computed by toPromote agrees pointwise with the spec's reference derivation
(empty when Disabled; start with to→to for required-or-non-optional images,
subtract ExcludedImages, union AdditionalImages, prefix every destination by
NamePrefix); consequently, when promotion is enabled: an excluded image that
is not re-added by AdditionalImages never appears, additional images always
appear (mapping NamePrefix+dst to their source), and an optional image that
is neither excluded nor additional appears iff it is required.  (This is the
claim as amended: as literally stated it fails when an image is both
excluded and additional — see the counterexample.) -/
theorem c1_toPromote_derivation (config : PromotionConfiguration)
    (images : List ProjectDirectoryImageBuildStepConfiguration)
    (required : List String)
    (hadd : (config.AdditionalImages.map Prod.fst).Nodup)
    (himg : (images.map (fun i => i.To)).Nodup) :
    (∀ y, lookupAssoc (toPromote config images required).1 y =
        lookupAssoc (toPromoteSpec config images required) y)
    ∧ (config.Disabled = true → toPromote config images required = ([], []))
    ∧ (config.Disabled = false → ∀ t ∈ config.ExcludedImages,
        t ∉ config.AdditionalImages.map Prod.fst →
        lookupAssoc (toPromote config images required).1 (config.NamePfx ++ t) = none)
    ∧ (config.Disabled = false → ∀ p ∈ config.AdditionalImages,
        lookupAssoc (toPromote config images required).1 (config.NamePfx ++ p.1) = some p.2)
    ∧ (config.Disabled = false → ∀ i ∈ images, i.Optional = true →
        i.To ∉ config.ExcludedImages →
        i.To ∉ config.AdditionalImages.map Prod.fst →
        (lookupAssoc (toPromote config images required).1 (config.NamePfx ++ i.To) ≠ none
          ↔ i.To ∈ required)) := by
  refine ⟨?_, ?_, ?_, ?_, ?_⟩
  · intro y
    rw [toPromote_get config images required y hadd, toPromoteSpec_get]
  · intro hd
    unfold toPromote
    rw [if_pos hd]
  · intro hdis t htex htadd
    rw [toPromote_get_prefixed config images required t hadd hdis]
    have hnone : lookupAssoc config.AdditionalImages t = none := by
      rw [lookupAssoc_eq_none_iff]
      simpa [mapKeys] using htadd
    rw [canonGet, hnone]
    simp [orElseOpt, htex]
  · intro hdis p hp
    rw [toPromote_get_prefixed config images required p.1 hadd hdis]
    have hsome : lookupAssoc config.AdditionalImages p.1 = some p.2 :=
      lookupAssoc_of_mem_nodup (by simpa [mapKeys] using hadd) hp
    rw [canonGet, hsome]
    rfl
  · intro hdis i hi hopt hiex hiadd
    rw [toPromote_get_prefixed config images required i.To hadd hdis]
    have hnone : lookupAssoc config.AdditionalImages i.To = none := by
      rw [lookupAssoc_eq_none_iff]
      simpa [mapKeys] using hiadd
    have hexc : config.ExcludedImages.contains i.To = false := by simpa using hiex
    have hany : (images.any (fun j =>
        (required.contains j.To || !j.Optional) && (j.To == i.To)))
        = required.contains i.To := by
      rw [any_eq_of_nodupTo images (fun j => required.contains j.To || !j.Optional) i himg hi]
      rw [hopt]
      simp
    rw [canonGet, hnone]
    simp only [orElseOpt, hexc, Bool.false_eq_true, if_false, hany]
    by_cases hr : i.To ∈ required
    · simp [hr]
    · simp [hr]

/-- C1 counterexample: with ExcludedImages = ["foo"] and AdditionalImages
mapping "foo" to "bar", the excluded image "foo" does appear in the computed
tag mapping (the additional-image union happens after the exclusion), so the
claim's "excluded images never appear" is false as literally stated. -/
theorem c1_counterexample :
    ("foo" ∈ cfgC1ctr.ExcludedImages)
    ∧ lookupAssoc (toPromote cfgC1ctr [] []).1 "foo" = some "bar" := by
  exact ⟨by decide, by decide⟩

/-- C1 witness: the amended theorem applied to a concrete configuration with
an additional image ("boo" from "ah"), an excluded image and two listed
images. -/
theorem c1_witness :
    lookupAssoc (toPromote cfgC1wit [{ To := "foo" }, { To := "bar" }] []).1
      "boo" = some "ah" :=
  (c1_toPromote_derivation cfgC1wit [{ To := "foo" }, { To := "bar" }] []
      (by decide) (by decide)).2.2.2.1 rfl ("boo", "ah") (by decide)

/-! ### Source selection in the reconciler (claims C2, C10) -/

theorem newestFold_le (l : List (String × ImageStreamTag)) (acc : String × Nat) :
    acc.2 ≤ (l.foldl newestStep acc).2 ∧
    ∀ q ∈ l, tsOf q ≤ (l.foldl newestStep acc).2 := by
  induction l generalizing acc with
  | nil => simp
  | cons p rest ih =>
    rw [List.foldl_cons]
    obtain ⟨h1, h2⟩ := ih (newestStep acc p)
    have hstep1 : acc.2 ≤ (newestStep acc p).2 := by
      unfold newestStep
      split <;> omega
    have hstep2 : tsOf p ≤ (newestStep acc p).2 := by
      unfold newestStep tsOf
      split <;> omega
    refine ⟨le_trans hstep1 h1, ?_⟩
    intro q hq
    rcases List.mem_cons.mp hq with h | h
    · rw [h]; exact le_trans hstep2 h1
    · exact h2 q h

theorem newestFold_cases (l : List (String × ImageStreamTag)) (acc : String × Nat) :
    l.foldl newestStep acc = acc ∨
    ∃ p ∈ l, l.foldl newestStep acc = (p.1, tsOf p) := by
  induction l generalizing acc with
  | nil => left; rfl
  | cons p rest ih =>
    rw [List.foldl_cons]
    rcases ih (newestStep acc p) with h | ⟨q, hq, h⟩
    · by_cases hc : acc.2 < p.2.Image.CreationTimestamp
      · right
        refine ⟨p, List.mem_cons_self p rest, ?_⟩
        rw [h]
        unfold newestStep
        rw [if_pos hc]
        rfl
      · left
        rw [h]
        unfold newestStep
        rw [if_neg hc]
    · right
      exact ⟨q, List.mem_cons_of_mem p hq, h⟩

theorem findNewest_spec (isTags : List (String × ImageStreamTag))
    (hpos : ∃ p ∈ isTags, 0 < tsOf p) :
    ∃ p ∈ isTags, findNewest isTags = p.1 ∧ ∀ q ∈ isTags, tsOf q ≤ tsOf p := by
  obtain ⟨p0, hp0, hpos0⟩ := hpos
  have hle := newestFold_le isTags ("", 0)
  rcases newestFold_cases isTags ("", 0) with h | ⟨p, hp, h⟩
  · exfalso
    have hle0 := hle.2 p0 hp0
    rw [h] at hle0
    simp at hle0
    omega
  · refine ⟨p, hp, ?_, ?_⟩
    · unfold findNewest
      rw [h]
    · intro q hq
      have hq' := hle.2 q hq
      rw [h] at hq'
      exact hq'

theorem findNewest_pair (A B : String) (a b : ImageStreamTag)
    (h : a.Image.CreationTimestamp < b.Image.CreationTimestamp) :
    findNewest [(A, a), (B, b)] = B := by
  unfold findNewest
  simp only [List.foldl_cons, List.foldl_nil]
  unfold newestStep
  by_cases ha : (0 : Nat) < a.Image.CreationTimestamp
  · rw [if_pos ha, if_pos h]
  · rw [if_neg ha, if_pos (show (0 : Nat) < b.Image.CreationTimestamp by omega)]

/-- C2 (amended): findNewest returns a cluster whose gathered tag carries the
maximal image creation timestamp — provided at least one gathered tag has a
nonzero timestamp (without that proviso the claim is false: see the
counterexample, where findNewest returns "" although a cluster holds the
tag); in particular for two clusters A and B with creation times tA < tB it
returns B; and when no cluster has the tag (nothing gathered) the reconcile
returns success without performing any action. -/
theorem c2_findNewest_selection :
    (∀ isTags : List (String × ImageStreamTag), (∃ p ∈ isTags, 0 < tsOf p) →
      ∃ p ∈ isTags, findNewest isTags = p.1 ∧ ∀ q ∈ isTags, tsOf q ≤ tsOf p)
    ∧ (∀ (A B : String) (a b : ImageStreamTag),
        a.Image.CreationTimestamp < b.Image.CreationTimestamp →
        findNewest [(A, a), (B, b)] = B)
    ∧ (∀ env : SyncEnv, gather env.clusters = [] →
        reconcile env = ([], .ok ())) := by
  refine ⟨findNewest_spec, findNewest_pair, ?_⟩
  intro env h
  simp [reconcile, h, findNewest]

/-- C2 counterexample: a single cluster A holds the tag with the zero
creation timestamp, yet findNewest returns "" rather than A — the claim as
literally stated (the cluster with the latest timestamp wins) fails on
all-zero timestamps. -/
theorem c2_counterexample :
    findNewest [("A", mkTagAbc 0)] = "" ∧ ("" : String) ≠ "A" := ⟨rfl, by decide⟩

/-- C2 witness: the amended theorem's two-cluster instance at creation times
1 < 2, and its no-tag instance at a gathered-empty environment. -/
theorem c2_witness :
    findNewest [("A", mkTagAbc 1), ("B", mkTagAbc 2)] = "B" :=
  c2_findNewest_selection.2.1 "A" "B" (mkTagAbc 1) (mkTagAbc 2) (by decide)

/-- C10: when every gathered ImageStreamTag's image carries the zero creation
timestamp, findNewest keeps its zero-time initial accumulator (a zero
timestamp is never strictly later than the running maximum), so the
reconcile returns success with no action at all — even though the tag exists
on one or more clusters. -/
theorem c10_zero_timestamps (env : SyncEnv)
    (hz : ∀ p ∈ gather env.clusters, tsOf p = 0) :
    reconcile env = ([], .ok ()) := by
  have hzfold : ∀ (l : List (String × ImageStreamTag)), (∀ p ∈ l, tsOf p = 0) →
      l.foldl newestStep ("", 0) = ("", 0) := by
    intro l
    induction l with
    | nil => intro _; rfl
    | cons p rest ih =>
      intro hz
      rw [List.foldl_cons]
      have hp : p.2.Image.CreationTimestamp = 0 := hz p (List.mem_cons_self p rest)
      have hstep : newestStep ("", 0) p = ("", 0) := by
        unfold newestStep
        rw [if_neg (by omega)]
      rw [hstep]
      exact ih (fun q hq => hz q (List.mem_cons_of_mem p hq))
  have hfn : findNewest (gather env.clusters) = "" := by
    unfold findNewest
    rw [hzfold (gather env.clusters) hz]
  simp [reconcile, hfn]

/-- C10 witness: the theorem applied to a concrete environment where one
cluster holds the tag with the zero creation timestamp. -/
theorem c10_witness :
    gather envC10.clusters ≠ [] ∧ reconcile envC10 = ([], .ok ()) :=
  ⟨by decide, c10_zero_timestamps envC10 (by decide)⟩

/-! ### The per-cluster sync loop's early returns (claims C3, C9) -/

/-- C3 (amended): when the sync loop reaches a non-source, non-back-reference
cluster that already holds the same image as the source (same Image.Name),
the reconcile does not merely skip that cluster — it returns success at that
point, after the namespace/stream ensure and cache poll for that cluster,
processing none of the remaining clusters (registrysyncer.go:283 is `return
nil`, not `continue`).  The claim's "only that cluster is skipped, and the
remaining non-source clusters still get ensures and imports" is false: see
the counterexample. -/
theorem c3_sync_returns_when_current (src : String) (srcTag : ImageStreamTag)
    (lookupTag : String → Option ImageStreamTag) (readOnly : Bool)
    (reqNs imageTag : String) (c : String) (rest : List String) (t : ImageStreamTag)
    (hne : c ≠ src)
    (hback : dockerImageImportedFromTargetingCluster c srcTag = false)
    (hcur : lookupTag c = some t)
    (hname : t.Image.Name = srcTag.Image.Name) :
    syncLoop src srcTag lookupTag readOnly reqNs imageTag (c :: rest) =
      ([SyncAction.ensureNamespace c reqNs, SyncAction.ensureImageStream c,
        SyncAction.pollCache c], .ok true) := by
  simp [syncLoop, hne, hback, hcur, hname]

/-- C3 counterexample: in the three-cluster environment envC3 (source api.ci;
cluster b already holds the source image; cluster c lacks the tag), the
reconcile returns success after processing b only — no namespace ensure,
stream ensure or ImageStreamImport is issued for cluster c, although c lacks
the image. -/
theorem c3_counterexample :
    reconcile envC3 =
      ([SyncAction.getSourceImageStream "api.ci", SyncAction.ensureFinalizer "api.ci",
        SyncAction.ensureNamespace "b" "ns", SyncAction.ensureImageStream "b",
        SyncAction.pollCache "b"], .ok ())
    ∧ ([SyncAction.getSourceImageStream "api.ci", SyncAction.ensureFinalizer "api.ci",
        SyncAction.ensureNamespace "b" "ns", SyncAction.ensureImageStream "b",
        SyncAction.pollCache "b"] : List SyncAction).all
        (fun a => actionCluster a != "c") = true :=
  ⟨rfl, by decide⟩

/-- C3 witness: the amended theorem applied to envC3's sync loop over
clusters [b, c]: it stops at b with exactly the three ensure actions. -/
theorem c3_witness :
    syncLoop "api.ci" (mkTagAbc 5) (lookupCluster envC3.clusters) false "ns" "t"
      ["b", "c"] =
      ([SyncAction.ensureNamespace "b" "ns", SyncAction.ensureImageStream "b",
        SyncAction.pollCache "b"], .ok true) :=
  c3_sync_returns_when_current "api.ci" (mkTagAbc 5) (lookupCluster envC3.clusters)
    false "ns" "t" "b" ["c"] (mkTagAbc 3) (by decide) (by decide) (by decide) (by decide)

theorem syncLoop_readonly_no_import (src : String) (srcTag : ImageStreamTag)
    (lookupTag : String → Option ImageStreamTag) (reqNs imageTag : String)
    (cs : List String) :
    ∀ a ∈ (syncLoop src srcTag lookupTag true reqNs imageTag cs).1,
      isImport a = false := by
  induction cs with
  | nil =>
    intro a ha
    simp [syncLoop] at ha
  | cons c rest ih =>
    intro a ha
    unfold syncLoop at ha
    by_cases h1 : c = src
    · simp only [if_pos h1] at ha
      exact ih a ha
    · simp only [if_neg h1] at ha
      by_cases h2 : dockerImageImportedFromTargetingCluster c srcTag = true
      · simp only [h2, if_true] at ha
        exact ih a ha
      · have h2' : dockerImageImportedFromTargetingCluster c srcTag = false := by
          simpa using h2
        simp only [h2', Bool.false_eq_true, if_false] at ha
        cases hlc : lookupTag c with
        | none =>
          cases hpd : publicDomainForImage src srcTag.Image.DockerImageReference with
          | error e =>
            simp [hlc, hpd] at ha
            rcases ha with rfl | rfl | rfl | rfl <;> rfl
          | ok img =>
            simp [hlc, hpd] at ha
            rcases ha with rfl | rfl | rfl | rfl <;> rfl
        | some t =>
          by_cases hname : (t.Image.Name == srcTag.Image.Name) = true
          · simp [hlc, hname] at ha
            rcases ha with rfl | rfl | rfl <;> rfl
          · have hname' : (t.Image.Name == srcTag.Image.Name) = false := by
              simpa using hname
            cases hpd : publicDomainForImage src srcTag.Image.DockerImageReference with
            | error e =>
              simp [hlc, hname', hpd] at ha
              rcases ha with rfl | rfl | rfl | rfl <;> rfl
            | ok img =>
              simp [hlc, hname', hpd] at ha
              rcases ha with rfl | rfl | rfl | rfl <;> rfl

/-- C9 (amended): in read-only mode no ImageStreamImport is ever submitted
during a reconcile; but the reconcile returns success at the first
non-source cluster that reaches the import step (registrysyncer.go:317 is
`return nil` inside the loop), so the read and ensure paths run only for the
clusters up to and including that first cluster, not for every non-source
cluster that needs syncing (see the counterexample). -/
theorem c9_readonly_behaviour :
    (∀ env : SyncEnv, env.readOnly = true →
      ∀ a ∈ (reconcile env).1, isImport a = false)
    ∧ (∀ (src : String) (srcTag : ImageStreamTag)
        (lookupTag : String → Option ImageStreamTag) (reqNs imageTag : String)
        (c : String) (rest : List String) (img : String),
        c ≠ src →
        dockerImageImportedFromTargetingCluster c srcTag = false →
        (∀ t, lookupTag c = some t → t.Image.Name ≠ srcTag.Image.Name) →
        publicDomainForImage src srcTag.Image.DockerImageReference = .ok img →
        syncLoop src srcTag lookupTag true reqNs imageTag (c :: rest) =
          ([SyncAction.ensureNamespace c reqNs, SyncAction.ensureImageStream c,
            SyncAction.pollCache c, SyncAction.ensurePullSecret c reqNs], .ok true)) := by
  constructor
  · intro env hro a ha
    unfold reconcile at ha
    by_cases h0 : findNewest (gather env.clusters) = ""
    · simp [h0] at ha
    · simp only [if_neg h0] at ha
      cases hla : lookupAssoc (gather env.clusters) (findNewest (gather env.clusters)) with
      | none => simp [hla] at ha
      | some srcTag =>
        cases hss : env.sourceStream with
        | none =>
          simp [hla, hss] at ha
          rw [ha]
          rfl
        | some ss =>
          by_cases hdel : ss.DeletionTimestamp = true
          · simp [hla, hss, hdel] at ha
            rcases ha with rfl | rfl <;> rfl
          · have hdel' : ss.DeletionTimestamp = false := by simpa using hdel
            simp only [hla, hss, hdel', Bool.false_eq_true, if_false] at ha
            rw [List.mem_append] at ha
            rcases ha with ha | ha
            · simp at ha
              rcases ha with rfl | rfl <;> rfl
            · rw [hro] at ha
              exact syncLoop_readonly_no_import _ _ _ _ _ _ a ha
  · intro src srcTag lookupTag reqNs imageTag c rest img hne hback hcur hpd
    unfold syncLoop
    rw [if_neg hne]
    simp only [hback, Bool.false_eq_true, if_false]
    cases hlc : lookupTag c with
    | none => simp [hpd]
    | some t =>
      have hname : (t.Image.Name == srcTag.Image.Name) = false :=
        beq_eq_false_iff_ne.mpr (hcur t hlc)
      simp [hname, hpd]

/-- C9 counterexample: in the three-cluster read-only environment envC9
(source api.ci; clusters b and c both lack the tag), the reconcile returns
after the ensure steps for b — the read and ensure paths never run for
cluster c, contradicting "all ensure paths still run for every non-source
cluster that needs syncing". -/
theorem c9_counterexample :
    reconcile envC9 =
      ([SyncAction.getSourceImageStream "api.ci", SyncAction.ensureFinalizer "api.ci",
        SyncAction.ensureNamespace "b" "ns", SyncAction.ensureImageStream "b",
        SyncAction.pollCache "b", SyncAction.ensurePullSecret "b" "ns"], .ok ())
    ∧ ([SyncAction.getSourceImageStream "api.ci", SyncAction.ensureFinalizer "api.ci",
        SyncAction.ensureNamespace "b" "ns", SyncAction.ensureImageStream "b",
        SyncAction.pollCache "b", SyncAction.ensurePullSecret "b" "ns"] :
        List SyncAction).all (fun a => actionCluster a != "c") = true :=
  ⟨rfl, by decide⟩

/-- C9 witness: the amended theorem applied to envC9's read-only sync loop at
cluster b (which lacks the tag): the loop stops there with the four ensure
actions and no import. -/
theorem c9_witness :
    syncLoop "api.ci" (mkTagAbc 5) (lookupCluster envC9.clusters) true "ns" "t" ["b"] =
      ([SyncAction.ensureNamespace "b" "ns", SyncAction.ensureImageStream "b",
        SyncAction.pollCache "b", SyncAction.ensurePullSecret "b" "ns"], .ok true) :=
  c9_readonly_behaviour.2 "api.ci" (mkTagAbc 5) (lookupCluster envC9.clusters) "ns" "t"
    "b" [] "registry.svc.ci.openshift.org/ns/isA@sha256:abc" (by decide) (by decide)
    (by
      intro t ht
      rw [show lookupCluster envC9.clusters "b" = none from by decide] at ht
      exact Option.noConfusion ht)
    rfl

/-! ### The names set of toPromote tracks the keys of the tag mapping
(needed for the emptiness checks of claims C4 and C5: run tests the names
set, the claims speak of the tag mapping) -/

theorem mem_setInsert (s : List String) (x y : String) :
    y ∈ setInsert s x ↔ y = x ∨ y ∈ s := by
  unfold setInsert
  by_cases h : x ∈ s
  · rw [if_pos (by simpa using h)]
    constructor
    · exact Or.inr
    · rintro (rfl | hy)
      · exact h
      · exact hy
  · rw [if_neg (by simpa using h)]
    rw [List.mem_append]
    simp [or_comm]

theorem mem_setDelete (s : List String) (x y : String) :
    y ∈ setDelete s x ↔ y ∈ s ∧ y ≠ x := by
  unfold setDelete
  rw [List.mem_filter]
  simp

theorem mem_mapKeys_mapSet {α : Type} (m : List (String × α)) (k : String) (v : α)
    (y : String) :
    y ∈ mapKeys (mapSet m k v) ↔ y = k ∨ y ∈ mapKeys m := by
  by_cases hyk : y = k
  · subst hyk
    simp [mapSet, mapKeys]
  · simp only [mapSet, mapKeys, mapDelete, List.map_cons, List.mem_cons]
    constructor
    · rintro (rfl | hy)
      · exact Or.inl rfl
      · obtain ⟨p, hp, hpy⟩ := List.mem_map.mp hy
        exact Or.inr (List.mem_map.mpr ⟨p, (List.mem_filter.mp hp).1, hpy⟩)
    · rintro (rfl | hy)
      · exact Or.inl rfl
      · obtain ⟨p, hp, hpy⟩ := List.mem_map.mp hy
        right
        refine List.mem_map.mpr ⟨p, List.mem_filter.mpr ⟨hp, ?_⟩, hpy⟩
        exact bne_iff_ne.mpr (hpy ▸ hyk)

theorem mem_mapKeys_mapDelete {α : Type} (m : List (String × α)) (k : String)
    (y : String) :
    y ∈ mapKeys (mapDelete m k) ↔ y ∈ mapKeys m ∧ y ≠ k := by
  simp only [mapKeys, mapDelete]
  constructor
  · intro hy
    obtain ⟨p, hp, hpy⟩ := List.mem_map.mp hy
    obtain ⟨hpm, hpk⟩ := List.mem_filter.mp hp
    exact ⟨List.mem_map.mpr ⟨p, hpm, hpy⟩, hpy ▸ bne_iff_ne.mp hpk⟩
  · rintro ⟨hy, hyk⟩
    obtain ⟨p, hp, hpy⟩ := List.mem_map.mp hy
    exact List.mem_map.mpr ⟨p, List.mem_filter.mpr ⟨hp, bne_iff_ne.mpr (hpy ▸ hyk)⟩, hpy⟩

theorem foldl_preserves_inv {β : Type}
    (f : (List (String × String) × List String) → β → (List (String × String) × List String))
    (hf : ∀ acc b, (∀ x, x ∈ acc.2 ↔ x ∈ mapKeys acc.1) →
      ∀ x, x ∈ (f acc b).2 ↔ x ∈ mapKeys (f acc b).1)
    (l : List β) (acc : List (String × String) × List String)
    (hacc : ∀ x, x ∈ acc.2 ↔ x ∈ mapKeys acc.1) :
    ∀ x, x ∈ (l.foldl f acc).2 ↔ x ∈ mapKeys (l.foldl f acc).1 := by
  induction l generalizing acc with
  | nil => simpa using hacc
  | cons b rest ih =>
    rw [List.foldl_cons]
    exact ih _ (hf acc b hacc)

theorem toPromote_names_iff (config : PromotionConfiguration)
    (images : List ProjectDirectoryImageBuildStepConfiguration)
    (required : List String) (x : String) :
    x ∈ (toPromote config images required).2 ↔
      x ∈ mapKeys (toPromote config images required).1 := by
  unfold toPromote
  by_cases hd : config.Disabled = true
  · rw [if_pos hd]
    simp [mapKeys]
  · rw [if_neg hd]
    have hinit := foldl_preserves_inv (toPromoteInitStep required)
      (by
        intro acc i hacc y
        unfold toPromoteInitStep
        by_cases hc : (required.contains i.To || !i.Optional) = true
        · rw [if_pos hc]
          rw [mem_setInsert, mem_mapKeys_mapSet]
          exact or_congr Iff.rfl (hacc y)
        · rw [if_neg hc]
          exact hacc y)
      images ([], []) (by intro y; simp [mapKeys])
    have hexcl := foldl_preserves_inv
      (fun acc tag => (mapDelete acc.1 tag, setDelete acc.2 tag))
      (by
        intro acc t hacc y
        rw [mem_setDelete, mem_mapKeys_mapDelete]
        exact and_congr (hacc y) Iff.rfl)
      config.ExcludedImages _ hinit
    have haddl := foldl_preserves_inv
      (fun acc p => (mapSet acc.1 p.1 p.2, setInsert acc.2 p.1))
      (by
        intro acc p hacc y
        rw [mem_setInsert, mem_mapKeys_mapSet]
        exact or_congr Iff.rfl (hacc y))
      config.AdditionalImages _ hexcl
    by_cases hp : config.NamePfx = ""
    · rw [if_pos hp]
      exact haddl x
    · rw [if_neg hp]
      simp [mapKeys, List.map_map]

theorem toPromote_tags_nil_iff (config : PromotionConfiguration)
    (images : List ProjectDirectoryImageBuildStepConfiguration)
    (required : List String) :
    (toPromote config images required).1 = [] ↔
      (toPromote config images required).2 = [] := by
  constructor <;> intro h
  · rw [List.eq_nil_iff_forall_not_mem]
    intro x hx
    have hk := (toPromote_names_iff config images required x).mp hx
    rw [h] at hk
    simp [mapKeys] at hk
  · rw [List.eq_nil_iff_forall_not_mem]
    intro p hp
    have hx : p.1 ∈ mapKeys (toPromote config images required).1 :=
      List.mem_map_of_mem Prod.fst hp
    have hn := (toPromote_names_iff config images required p.1).mpr hx
    rw [h] at hn
    simp at hn

/-! ### The mirror-mapping fold (claim C5) -/

theorem mirror_foldl_filter (config : PromotionConfiguration)
    (pipeline : PromoImageStream) (tags : List (String × String)) :
    ∀ m, tags.foldl (mirrorStep config pipeline) m =
      (tags.filter (fun pr => findDockerImageReference pipeline pr.2 != "")).foldl
        (mirrorStep config pipeline) m := by
  induction tags with
  | nil => intro m; rfl
  | cons pr rest ih =>
    intro m
    rw [List.foldl_cons, List.filter_cons]
    by_cases href : findDockerImageReference pipeline pr.2 = ""
    · have hb : (findDockerImageReference pipeline pr.2 != "") = false := by
        simp [href]
      rw [hb]
      simp only [Bool.false_eq_true, if_false]
      have hstep : mirrorStep config pipeline m pr = m := by
        simp only [mirrorStep]
        rw [if_pos href]
      rw [hstep]
      exact ih m
    · have hb : (findDockerImageReference pipeline pr.2 != "") = true :=
        bne_iff_ne.mpr href
      rw [hb]
      simp only [if_true]
      rw [List.foldl_cons]
      exact ih _

/-- C4: in the promotion step's run, once the branch is reached (some tag is
promoted and the pipeline Get succeeded), when a push secret is present the
step returns the error "image-creator client is nil" precisely when the
image-creator client is NOT nil (the check at promote.go:86 is inverted);
and with a nil image-creator client it proceeds into the external-push path,
dereferencing that nil client to issue the destination-namespace Get (on
which Go panics — a panic, not a return of the error). -/
theorem c4_inverted_nil_check (env : PromoEnv)
    (hpush : env.pushSecret = true)
    (hnames : (toPromote env.config env.images env.requiredImages).2 ≠ [])
    (hpipe : env.pipeline ≠ none) :
    ((runPromotion env).2 = .err "image-creator client is nil" ↔
      env.imageCreatorClientNil = false)
    ∧ (env.imageCreatorClientNil = true →
      PromoAction.getNamespaceViaImageCreator true ∈ (runPromotion env).1) := by
  obtain ⟨p, hp⟩ : ∃ p, env.pipeline = some p := by
    cases hpl : env.pipeline with
    | none => exact absurd hpl hpipe
    | some q => exact ⟨q, rfl⟩
  by_cases hnil : env.imageCreatorClientNil = true
  · constructor
    · simp [runPromotion, hp, hpush, hnil, hnames]
    · intro _
      simp [runPromotion, hp, hpush, hnil, hnames]
  · have hnil' : env.imageCreatorClientNil = false := by simpa using hnil
    constructor
    · simp [runPromotion, hp, hpush, hnil', hnames]
    · intro hcontra
      rw [hnil'] at hcontra
      exact Bool.noConfusion hcontra

/-- C4 witness: in envC4 (push secret present, image-creator client not nil,
one promoted image, pipeline Get succeeding), run returns the inverted-check
error. -/
theorem c4_witness :
    (runPromotion envC4).2 = .err "image-creator client is nil" :=
  (c4_inverted_nil_check envC4 rfl (by decide) (by decide)).1.mpr rfl

/-- C5 (amended): (1) a source tag whose pull spec is absent from the
pipeline's status (no status entry, or an entry without items: then
findDockerImageReference returns "") is silently omitted from the mirror
mapping — the mapping equals the one computed from the present tags only,
and no error is produced (getImageMirrorTarget is total); (2) when the tag
mapping itself is empty, run returns nil having performed no action at all;
(3) the claim's mirror-mapping-empty clause, however, never applies: with a
push secret and a non-empty tag mapping, run never returns nil — it returns
the inverted-check error precisely when the image-creator client is non-nil,
and otherwise panics dereferencing the nil client at the namespace Get
(promote.go:91), before the mirror mapping or its emptiness is ever
computed; on this path no pod is spawned and no write is performed. -/
theorem c5_silent_skip_and_empty :
    (∀ (config : PromotionConfiguration) (tags : List (String × String))
        (pipeline : PromoImageStream),
      getImageMirrorTarget config tags (some pipeline) =
        getImageMirrorTarget config
          (tags.filter (fun pr => findDockerImageReference pipeline pr.2 != ""))
          (some pipeline))
    ∧ (∀ env : PromoEnv,
        (toPromote env.config env.images env.requiredImages).1 = [] →
        runPromotion env = ([], .ok))
    ∧ (∀ env : PromoEnv, env.pushSecret = true →
        (toPromote env.config env.images env.requiredImages).2 ≠ [] →
        env.pipeline ≠ none →
        (runPromotion env).2 ≠ RunOutcome.ok
        ∧ ((runPromotion env).2 =
            RunOutcome.panicked "invalid memory address or nil pointer dereference" ↔
            env.imageCreatorClientNil = true)
        ∧ ∀ a ∈ (runPromotion env).1, isPodSpawn a = false ∧ isWrite a = false) := by
  refine ⟨?_, ?_, ?_⟩
  · intro config tags pipeline
    unfold getImageMirrorTarget
    exact mirror_foldl_filter config pipeline tags []
  · intro env h
    have hnames : (toPromote env.config env.images env.requiredImages).2 = [] :=
      (toPromote_tags_nil_iff _ _ _).mp h
    simp [runPromotion, hnames]
  · intro env hpush hnames hpipe
    obtain ⟨p, hp⟩ : ∃ p, env.pipeline = some p := by
      cases hpl : env.pipeline with
      | none => exact absurd hpl hpipe
      | some q => exact ⟨q, rfl⟩
    by_cases hnil : env.imageCreatorClientNil = true
    · refine ⟨?_, ?_, ?_⟩
      · simp [runPromotion, hp, hpush, hnil, hnames]
      · simp [runPromotion, hp, hpush, hnil, hnames]
      · intro a ha
        simp [runPromotion, hp, hpush, hnil, hnames] at ha
        rcases ha with rfl | rfl <;> exact ⟨rfl, rfl⟩
    · have hnil' : env.imageCreatorClientNil = false := by simpa using hnil
      refine ⟨?_, ?_, ?_⟩
      · simp [runPromotion, hp, hpush, hnil', hnames]
      · simp [runPromotion, hp, hpush, hnil', hnames]
      · intro a ha
        simp [runPromotion, hp, hpush, hnil', hnames] at ha
        rw [ha]
        exact ⟨rfl, rfl⟩

/-- C5 counterexample: in envC5 (push secret, nil image-creator client, one
promoted tag absent from the pipeline status) the mirror mapping of
promote.go:100 would be empty, yet run does not return nil: the only way
past the inverted check is the nil client, and the Get issued on it at
promote.go:91 panics, so the empty-mapping check at promote.go:101-104 —
and the nil return the claim asserts — is never reached. -/
theorem c5_counterexample :
    getImageMirrorTarget envC5.config
      (toPromote envC5.config envC5.images envC5.requiredImages).1 envC5.pipeline = []
    ∧ runPromotion envC5 =
        ([PromoAction.getPipeline, PromoAction.getNamespaceViaImageCreator true],
         .panicked "invalid memory address or nil pointer dereference")
    ∧ RunOutcome.panicked "invalid memory address or nil pointer dereference" ≠
        RunOutcome.ok :=
  ⟨rfl, rfl, by decide⟩

/-- C5 witness: the amended theorem's empty-tag-mapping clause applied to the
disabled configuration of envC5empty. -/
theorem c5_witness : runPromotion envC5empty = ([], .ok) :=
  c5_silent_skip_and_empty.2.1 envC5empty (by decide)

/-! ### The promotion pod (claim C6) -/

theorem lookupAssoc_perm {α : Type} {M M' : List (String × α)}
    (hnd : (M.map Prod.fst).Nodup) (hperm : M'.Perm M) (k : String) :
    lookupAssoc M' k = lookupAssoc M k := by
  have hnd' : (mapKeys M').Nodup := by
    have hkp : (M'.map Prod.fst).Perm (M.map Prod.fst) := hperm.map Prod.fst
    exact (hkp.nodup_iff).mpr hnd
  cases hM : lookupAssoc M k with
  | none =>
    rw [lookupAssoc_eq_none_iff] at hM ⊢
    intro hk
    exact hM ((hperm.map Prod.fst).mem_iff.mp hk)
  | some v =>
    exact lookupAssoc_of_mem_nodup hnd' (hperm.mem_iff.mpr (lookupAssoc_mem hM))

/-- C6: for every non-empty mirror mapping with (Go-map) distinct keys and
every namespace, the promotion pod is named "promotion" in that namespace
with restart policy Never, one container named "promotion" whose single
volume mount is push-secret at /etc/push-secret read-only, one volume
push-secret, and args equal to the mirror commands
"oc image mirror --registry-config=/etc/push-secret/.dockerconfigjson src dst"
for the mapping's keys in ascending lexicographic order joined by " && ";
and the pod is the same regardless of the order in which the mapping's
entries were inserted. -/
theorem c6_promotion_pod (M : List (String × String)) (N : String)
    (hne : M ≠ []) (hnd : (M.map Prod.fst).Nodup) :
    (getPromotionPod M N).Name = "promotion"
    ∧ (getPromotionPod M N).Namespace = N
    ∧ (getPromotionPod M N).RestartPolicy = "Never"
    ∧ (∃ c, (getPromotionPod M N).Containers = [c]
        ∧ c.Name = "promotion"
        ∧ c.VolumeMounts =
            [{ Name := "push-secret", MountPath := "/etc/push-secret", ReadOnly := true }]
        ∧ ∃ ks, ks.Perm (M.map Prod.fst)
            ∧ List.Sorted (fun a b : String => a ≤ b) ks
            ∧ c.Args = [goJoin " && " (ks.map (fun k =>
                mirrorCommand k ((lookupAssoc M k).getD "")))])
    ∧ (getPromotionPod M N).Volumes =
        [{ Name := "push-secret", SecretName := RegistryPushCredentialsCICentralSecret }]
    ∧ (∀ M' : List (String × String), M'.Perm M →
        getPromotionPod M' N = getPromotionPod M N) := by
  refine ⟨rfl, rfl, rfl, ⟨_, rfl, rfl, rfl, sortStrings (mapKeys M), ?_, ?_, rfl⟩, rfl, ?_⟩
  · have hp := List.perm_insertionSort (fun a b : String => a ≤ b) (mapKeys M)
    simpa [sortStrings, mapKeys] using hp
  · exact List.sorted_insertionSort _ _
  · intro M' hperm
    have hkeys : sortStrings (mapKeys M') = sortStrings (mapKeys M) := by
      have hs1 := List.sorted_insertionSort (fun a b : String => a ≤ b) (mapKeys M')
      have hs2 := List.sorted_insertionSort (fun a b : String => a ≤ b) (mapKeys M)
      have hpp : (sortStrings (mapKeys M')).Perm (sortStrings (mapKeys M)) :=
        ((List.perm_insertionSort _ _).trans (hperm.map Prod.fst)).trans
          (List.perm_insertionSort _ _).symm
      exact List.eq_of_perm_of_sorted hpp hs1 hs2
    have hlook : (fun k => mirrorCommand k ((lookupAssoc M' k).getD "")) =
        (fun k => mirrorCommand k ((lookupAssoc M k).getD "")) := by
      funext k
      rw [lookupAssoc_perm hnd hperm k]
    simp only [getPromotionPod]
    rw [hkeys, hlook]

/-- C6 witness: the theorem applied to the two-entry mapping
[(b, y), (a, x)] in namespace n. -/
theorem c6_witness :
    (getPromotionPod [("b", "y"), ("a", "x")] "n").RestartPolicy = "Never" :=
  (c6_promotion_pod [("b", "y"), ("a", "x")] "n" (by decide) (by decide)).2.2.1

/-- C7: PromotedTags on {Namespace roger, Name fred} with images [foo] yields
exactly [{roger, fred, foo}]; on {Namespace roger, Tag fred} with images
[foo] it yields exactly [{roger, foo, fred}]; and without a
PromotionConfiguration it yields nil (modelled as the empty list). -/
theorem c7_promoted_tags :
    PromotedTags rbcWithName = [{ Namespace := "roger", Name := "fred", Tag := "foo" }]
    ∧ PromotedTags rbcWithTag = [{ Namespace := "roger", Name := "foo", Tag := "fred" }]
    ∧ PromotedTags rbcNoPromo = [] :=
  ⟨rfl, rfl, rfl⟩

set_option maxRecDepth 8000 in
/-- C8: getPublicImageReference maps the spec's example reference (internal
registry host docker-registry.default.svc:5000) with the public repository
registry.svc.ci.openshift.org/ci-op-bgqwwknr/pipeline to the same digest
reference under the public hostname; and whenever the input contains no
":5000" substring the output equals the input. -/
theorem c8_public_image_reference :
    getPublicImageReference
        "docker-registry.default.svc:5000/ci-op-bgqwwknr/pipeline@sha256:d8385fb539f471d4f41da131366b559bb90eeeeca2edd265e10d7c2aa052a1af"
        "registry.svc.ci.openshift.org/ci-op-bgqwwknr/pipeline" =
      "registry.svc.ci.openshift.org/ci-op-bgqwwknr/pipeline@sha256:d8385fb539f471d4f41da131366b559bb90eeeeca2edd265e10d7c2aa052a1af"
    ∧ (∀ ref pub : String, goContains ref ":5000" = false →
        getPublicImageReference ref pub = ref) := by
  refine ⟨rfl, ?_⟩
  intro ref pub h
  unfold getPublicImageReference
  rw [h]
  rfl

/-- C8 witness: the no-":5000" clause applied to a concrete reference. -/
theorem c8_witness : getPublicImageReference "abc" "x/y" = "abc" :=
  c8_public_image_reference.2 "abc" "x/y" rfl

end CIOps
